import Mathlib

/-!
# Verification of the `update-dns` core (src/main.rs)

Shallow embedding of the update-orchestration logic of the `update-dns`
tool: record building (`Args::to_record`, `Args::to_reverse_record`,
`Args::to_update0`), zone resolution (`find_zone_root`), and the
orchestrator (`update_name`, `delete_name`, and the dispatch in `main`).

The DNS session collaborator (hickory `Client`) is modelled as an oracle
assigning to each call a transport failure or a structured response; the
orchestrator functions additionally return the list of session calls they
issued, in order, so that ordering and frame properties are statable.
Logging (`info!`, `debug!`, `warn!`) has no semantic effect and is omitted.
-/

/-- Domain names, kept at the textual level (hickory `Name`). -/
abbrev DnsName := String

/-- Wire-level record types used by the program (the CLI subset plus
`RRSIG`, which `find_zone_root` filters out, and `ANY`/query-only types). -/
inductive RRType where
  | A | AAAA | CNAME | MX | NS | PTR | SRV | TXT
  | RRSIG
  | ANY
deriving DecidableEq, Repr

/-- `RecordType::is_rrsig` from hickory-proto. -/
def RRType.is_rrsig : RRType → Bool
  | .RRSIG => true
  | _ => false

/-- The CLI record-type enum `DnsRecordType` from src/main.rs. -/
inductive DnsRecordType where
  | A | AAAA | CNAME | MX | NS | PTR | SRV | TXT
deriving DecidableEq, Repr

/-- The `Into<RecordType> for DnsRecordType` conversion from src/main.rs. -/
def DnsRecordType.toRRType : DnsRecordType → RRType
  | .A => .A
  | .AAAA => .AAAA
  | .CNAME => .CNAME
  | .MX => .MX
  | .NS => .NS
  | .PTR => .PTR
  | .SRV => .SRV
  | .TXT => .TXT

/-- DNS response codes (hickory `ResponseCode`), restricted to the codes the
program distinguishes plus representative error codes. -/
inductive ResponseCode where
  | NoError | NXDomain | ServFail | NotAuth | Refused | NotZone
deriving DecidableEq, Repr

/-- DNS classes; the program only ever uses `IN`. -/
inductive DNSClass where
  | IN
deriving DecidableEq, Repr

/-- An IPv4 address as four octets (hickory `rdata::A` / std `Ipv4Addr`). -/
structure Ipv4 where
  o1 : Nat
  o2 : Nat
  o3 : Nat
  o4 : Nat
deriving DecidableEq, Repr

/-- An IPv6 address as its 128-bit value (hickory `rdata::AAAA`). -/
abbrev Ipv6 := Nat

/-- Record data (hickory `RData`), covering the variants the program
constructs or inspects.  `Update0` is hickory's empty-rdata marker used by
RFC 2136 "delete RRset" pseudo-records. -/
inductive RData where
  | A (addr : Ipv4)
  | AAAA (addr : Ipv6)
  | CNAME (target : DnsName)
  | MX (priority : Nat) (target : DnsName)
  | NS (target : DnsName)
  | PTR (target : DnsName)
  | SRV (priority weight port : Nat) (target : DnsName)
  | TXT (strings : List String)
  | RRSIG
  | Update0 (t : RRType)
deriving DecidableEq, Repr

/-- The record type carried by a piece of record data (hickory keeps the
`rr_type` field consistent with the rdata variant). -/
def RData.rtype : RData → RRType
  | .A _ => .A
  | .AAAA _ => .AAAA
  | .CNAME _ => .CNAME
  | .MX _ _ => .MX
  | .NS _ => .NS
  | .PTR _ => .PTR
  | .SRV _ _ _ _ => .SRV
  | .TXT _ => .TXT
  | .RRSIG => .RRSIG
  | .Update0 t => t

/-- `Update0` rdata serializes to zero bytes of record data; every other
variant the program builds carries data. -/
def RData.isEmptyRdata : RData → Bool
  | .Update0 _ => true
  | _ => false

/-- A resource record (hickory `Record`): owner name, ttl, rdata. -/
structure DnsRecord where
  name : DnsName
  ttl : Nat
  rdata : RData
deriving DecidableEq, Repr

/-- `Record::record_type()`. -/
def DnsRecord.rtype (r : DnsRecord) : RRType := r.rdata.rtype

/-- `Record::update0(name, ttl, rr_type)` from hickory-proto: a record with
the given owner name and ttl and the empty `Update0` rdata marker. -/
def DnsRecord.update0 (name : DnsName) (ttl : Nat) (t : RRType) : DnsRecord :=
  ⟨name, ttl, .Update0 t⟩

/-! ## Value parsers (std / hickory `FromStr`, modelled at contract level) -/

/-- Decimal digit value of a character, if it is a digit. -/
def digitVal (c : Char) : Option Nat :=
  if c.isDigit then some (c.toNat - 48) else none

/-- Split a character list on a separator character. -/
def splitOnChar (sep : Char) : List Char → List (List Char)
  | [] => [[]]
  | c :: rest =>
    if c = sep then [] :: splitOnChar sep rest
    else
      match splitOnChar sep rest with
      | [] => [[c]]
      | g :: gs => (c :: g) :: gs

/-- Parse a non-empty all-digit character list to a natural number. -/
def parseDigits (cs : List Char) : Option Nat :=
  match cs with
  | [] => none
  | _ =>
    cs.foldl
      (fun acc c =>
        match acc, digitVal c with
        | some n, some d => some (n * 10 + d)
        | _, _ => none)
      (some 0)

/-- Rust `str::parse::<uN>()` for an N-bit unsigned integer: decimal digits
within range. -/
def parseUInt (bound : Nat) (s : String) : Option Nat :=
  match parseDigits s.data with
  | some n => if n < bound then some n else none
  | none => none

/-- One dotted-quad component per std `Ipv4Addr` syntax: decimal, no leading
zero, at most 255. -/
def parseOctet (cs : List Char) : Option Nat :=
  match cs with
  | [] => none
  | c :: rest =>
    if c = '0' ∧ rest ≠ [] then none
    else
      match parseDigits cs with
      | some n => if n ≤ 255 then some n else none
      | none => none

/-- std `Ipv4Addr::from_str`: exactly four dotted components. -/
def parseIpv4 (s : String) : Option Ipv4 :=
  match (splitOnChar '.' s.data).mapM parseOctet with
  | some [a, b, c, d] => some ⟨a, b, c, d⟩
  | _ => none

/-- Hexadecimal digit value of a character. -/
def hexVal (c : Char) : Option Nat :=
  if c.isDigit then some (c.toNat - 48)
  else if 'a' ≤ c ∧ c ≤ 'f' then some (c.toNat - 97 + 10)
  else if 'A' ≤ c ∧ c ≤ 'F' then some (c.toNat - 65 + 10)
  else none

/-- One 16-bit group of an IPv6 literal: one to four hex digits. -/
def parseHexGroup (cs : List Char) : Option Nat :=
  if cs.length = 0 ∨ 4 < cs.length then none
  else
    cs.foldl
      (fun acc c =>
        match acc, hexVal c with
        | some n, some d => some (n * 16 + d)
        | _, _ => none)
      (some 0)

/-- Split a character list at the first occurrence of a double colon,
returning the parts before and after it. -/
def splitElision : List Char → Option (List Char × List Char)
  | ':' :: ':' :: rest => some ([], rest)
  | c :: rest => (splitElision rest).map (fun p => (c :: p.1, p.2))
  | [] => none

/-- Parse a colon-separated run of hex groups. -/
def parseGroups (cs : List Char) : Option (List Nat) :=
  (splitOnChar ':' cs).mapM parseHexGroup

/-- Assemble eight 16-bit groups into a 128-bit value. -/
def groupsToIpv6 (gs : List Nat) : Ipv6 :=
  gs.foldl (fun acc g => acc * 65536 + g) 0

/-- std `Ipv6Addr::from_str`, restricted to pure-hex forms: eight
colon-separated groups, or two group runs joined by one `::` elision
(the embedded-IPv4 textual form is not modelled). -/
def parseIpv6 (s : String) : Option Ipv6 :=
  match splitElision s.data with
  | none =>
    match parseGroups s.data with
    | some gs => if gs.length = 8 then some (groupsToIpv6 gs) else none
    | none => none
  | some (l, r) =>
    if (splitElision r).isSome then none
    else
      let lgroups := if l = [] then some [] else parseGroups l
      let rgroups := if r = [] then some [] else parseGroups r
      match lgroups, rgroups with
      | some lg, some rg =>
        if lg.length + rg.length ≤ 7 then
          some (groupsToIpv6
            (lg ++ List.replicate (8 - lg.length - rg.length) 0 ++ rg))
        else none
      | _, _ => none

/-- hickory `Name::from_str`; name syntax checking belongs to the external
library and no orchestration decision depends on it, so it is modelled as
accepting the textual name. -/
def parseDnsName (s : String) : Option DnsName := some s

/-- `Ipv4Addr → Name` reverse-lookup owner name (`d.c.b.a.in-addr.arpa.`). -/
def reverseNameV4 (ip : Ipv4) : DnsName :=
  toString ip.o4 ++ "." ++ toString ip.o3 ++ "." ++ toString ip.o2 ++ "." ++
    toString ip.o1 ++ ".in-addr.arpa."

/-- Hexadecimal digit character for a nibble value. -/
def nibbleChar (n : Nat) : Char :=
  if n < 10 then Char.ofNat (48 + n) else Char.ofNat (97 + (n - 10))

/-- The 32 nibbles of a 128-bit value, most significant first. -/
def ipv6Nibbles (v : Ipv6) : List Nat :=
  (List.range 32).map (fun i => v / 16 ^ (31 - i) % 16)

/-- `Ipv6Addr → Name` reverse-lookup owner name: nibbles in reverse order
under `ip6.arpa.`. -/
def reverseNameV6 (v : Ipv6) : DnsName :=
  ((ipv6Nibbles v).reverse.map
    (fun n => String.mk [nibbleChar n] ++ ".")).foldl (· ++ ·) ""
    ++ "ip6.arpa."

/-! ## Errors

Each `bail!`/`format_err!`/`?` site of the core maps to one constructor;
`anyhow` carries them as strings, the embedding keeps them structured. -/

/-- The error taxonomy of the core (one constructor per failure site). -/
inductive UpdateError where
  /-- `format_err!("Missing value")` in `to_record` / `to_reverse_record`. -/
  | missingValue
  /-- `format_err!("No record type")` in `to_record` / `to_reverse_record`. -/
  | noRecordType
  /-- `bail!("Need two MX data fields (prio and name)")`. -/
  | mxArity
  /-- `bail!("Need four SRV data fields (prio, weight, port and name)")`. -/
  | srvArity
  /-- a `parse()?` / `with_context` failure on a user-supplied field. -/
  | fieldFormat (field : String) (value : String)
  /-- `bail!("Can't reverse record type {:?}", t)`. -/
  | cantReverse (t : DnsRecordType)
  /-- `bail!("Server returned error: {}", code)` after any session call. -/
  | serverError (code : ResponseCode)
  /-- `bail!("Server is not authoritative for hostname {}", hostname)`. -/
  | notAuthoritative (hostname : DnsName)
  /-- `format_err!("Server returned no name servers")`. -/
  | noNameServer
  /-- `bail!("Can't delete name {} that doesn't exist", hostname)`. -/
  | nothingToDelete (hostname : DnsName)
  /-- a transport/timeout error surfaced by `?` on a session call. -/
  | transport
deriving DecidableEq, Repr

/-- The parsed command-line arguments (struct `Args` in src/main.rs),
without the flags that only affect logging. -/
structure Args where
  hostname : DnsName
  record_type : Option DnsRecordType
  value : List String
  reverse : Bool
  delete : Bool
  append : Bool
  ttl : Nat
deriving DecidableEq, Repr

/-- `Args::to_record`: build the resource record described by the
command-line values, parsing each positional value into the shape its
record type requires.  Mirrors the source exactly: `value.first()` is
demanded before anything else, the `MX`/`SRV` arms pattern-match the whole
value slice, and the single-value arms use only the first value. -/
def Args.to_record (args : Args) : Except UpdateError DnsRecord := do
  let value ← match args.value.head? with
    | some v => Except.ok v
    | none => Except.error UpdateError.missingValue
  let t ← match args.record_type with
    | some t => Except.ok t
    | none => Except.error UpdateError.noRecordType
  let rdata : RData ← match t with
    | .A =>
      match parseIpv4 value with
      | some ip => Except.ok (RData.A ip)
      | none => Except.error (UpdateError.fieldFormat "A address" value)
    | .AAAA =>
      match parseIpv6 value with
      | some ip => Except.ok (RData.AAAA ip)
      | none => Except.error (UpdateError.fieldFormat "AAAA address" value)
    | .CNAME =>
      match parseDnsName value with
      | some n => Except.ok (RData.CNAME n)
      | none => Except.error (UpdateError.fieldFormat "CNAME target" value)
    | .MX =>
      match args.value with
      | [prio, name] =>
        match parseUInt 65536 prio with
        | some p =>
          match parseDnsName name with
          | some n => Except.ok (RData.MX p n)
          | none => Except.error (UpdateError.fieldFormat "MX target" name)
        | none => Except.error (UpdateError.fieldFormat "MX priority" prio)
      | _ => Except.error UpdateError.mxArity
    | .NS =>
      match parseDnsName value with
      | some n => Except.ok (RData.NS n)
      | none => Except.error (UpdateError.fieldFormat "NS target" value)
    | .PTR =>
      match parseDnsName value with
      | some n => Except.ok (RData.PTR n)
      | none => Except.error (UpdateError.fieldFormat "PTR target" value)
    | .SRV =>
      match args.value with
      | [prio, weight, port, name] =>
        match parseUInt 65536 prio with
        | some p =>
          match parseUInt 65536 weight with
          | some w =>
            match parseUInt 65536 port with
            | some pt =>
              match parseDnsName name with
              | some n => Except.ok (RData.SRV p w pt n)
              | none => Except.error (UpdateError.fieldFormat "SRV target" name)
            | none => Except.error (UpdateError.fieldFormat "SRV port" port)
          | none => Except.error (UpdateError.fieldFormat "SRV weight" weight)
        | none => Except.error (UpdateError.fieldFormat "SRV priority" prio)
      | _ => Except.error UpdateError.srvArity
    | .TXT => Except.ok (RData.TXT args.value)
  Except.ok ⟨args.hostname, args.ttl, rdata⟩

/-- `Args::to_reverse_record`: build the reverse PTR record for an `A` or
`AAAA` request; any other record type errors. -/
def Args.to_reverse_record (args : Args) : Except UpdateError DnsRecord := do
  let value ← match args.value.head? with
    | some v => Except.ok v
    | none => Except.error UpdateError.missingValue
  let t ← match args.record_type with
    | some t => Except.ok t
    | none => Except.error UpdateError.noRecordType
  let revName : DnsName ← match t with
    | .A =>
      match parseIpv4 value with
      | some ip => Except.ok (reverseNameV4 ip)
      | none => Except.error (UpdateError.fieldFormat "A address" value)
    | .AAAA =>
      match parseIpv6 value with
      | some ip => Except.ok (reverseNameV6 ip)
      | none => Except.error (UpdateError.fieldFormat "AAAA address" value)
    | t => Except.error (UpdateError.cantReverse t)
  Except.ok ⟨revName, args.ttl, RData.PTR args.hostname⟩

/-- `Args::to_update0`: the "delete this RRset" marker record for the
hostname and record type of the invocation, when a record type was given. -/
def Args.to_update0 (args : Args) : Option DnsRecord :=
  args.record_type.map
    (fun t => DnsRecord.update0 args.hostname args.ttl t.toRRType)

/-- The argument validation performed at the top of `main`: without
`--delete` both a record type and at least one value are required, and
`--reverse` is only accepted for `A`/`AAAA` (or no type, for delete-all). -/
def Args.valid (args : Args) : Bool :=
  (args.delete || (args.record_type.isSome && !args.value.isEmpty)) &&
  (!args.reverse ||
    match args.record_type with
    | some .A => true
    | some .AAAA => true
    | none => true
    | _ => false)

/-! ## The session collaborator and the call trace -/

/-- A DNS query/update response as the core consumes it (hickory
`DnsResponse`): status code, authoritative flag, answer section,
name-server section. -/
structure DnsResponse where
  code : ResponseCode
  authoritative : Bool
  answers : List DnsRecord
  name_servers : List DnsRecord
deriving DecidableEq, Repr

/-- One call issued through the session (the five hickory `ClientHandle`
operations the core uses), recorded with its arguments. -/
inductive SessionCall where
  | query (name : DnsName) (cls : DNSClass) (qtype : RRType)
  | create (record : DnsRecord) (zone : DnsName)
  | append (record : DnsRecord) (zone : DnsName) (must_exist : Bool)
  | delete_rrset (record : DnsRecord) (zone : DnsName)
  | delete_all (name : DnsName) (zone : DnsName) (cls : DNSClass)
deriving DecidableEq, Repr

/-- Whether a session call is a read-only query. -/
def SessionCall.isQuery : SessionCall → Bool
  | .query _ _ _ => true
  | _ => false

/-- The session oracle: what the server answers to each possible call.
`Except.error ()` models a transport failure (the `?` on the session
future); `Except.ok` carries the structured response. -/
structure Session where
  query : DnsName → DNSClass → RRType → Except Unit DnsResponse
  create : DnsRecord → DnsName → Except Unit DnsResponse
  append : DnsRecord → DnsName → Bool → Except Unit DnsResponse
  delete_rrset : DnsRecord → DnsName → Except Unit DnsResponse
  delete_all : DnsName → DnsName → DNSClass → Except Unit DnsResponse

/-- An orchestrator step returns the list of session calls it issued, in
order, together with its result. -/
abbrev Traced (α : Type) := List SessionCall × Except UpdateError α

/-! ## The orchestrator (src/main.rs) -/

/-- `delete_record`: issue a `delete_rrset` for the record and check the
response code is `NoError`. -/
def delete_record (record : DnsRecord) (zone : DnsName) (s : Session) :
    Traced Unit :=
  let call := SessionCall.delete_rrset record zone
  match s.delete_rrset record zone with
  | .error _ => ([call], .error .transport)
  | .ok response =>
    if response.code ≠ ResponseCode.NoError then
      ([call], .error (.serverError response.code))
    else
      ([call], .ok ())

/-- `find_zone_root`: query the server for the hostname (ANY) and its NS
set; both responses must be `NXDomain` or `NoError`; the ANY response must
be authoritative; the matching non-RRSIG answers are extracted; the zone is
the owner name of the first name-server record, and an empty name-server
section is an error. -/
def find_zone_root (hostname : DnsName) (new_type : Option RRType)
    (s : Session) : Traced (DnsName × List DnsRecord) :=
  let c1 := SessionCall.query hostname DNSClass.IN RRType.ANY
  match s.query hostname DNSClass.IN RRType.ANY with
  | .error _ => ([c1], .error .transport)
  | .ok response =>
    let c2 := SessionCall.query hostname DNSClass.IN RRType.NS
    match s.query hostname DNSClass.IN RRType.NS with
    | .error _ => ([c1, c2], .error .transport)
    | .ok ns_response =>
      let calls := [c1, c2]
      match response.code with
      | .NXDomain | .NoError =>
        match ns_response.code with
        | .NXDomain | .NoError =>
          if !response.authoritative then
            (calls, .error (.notAuthoritative hostname))
          else
            let responses := response.answers.filter
              (fun r =>
                !r.rtype.is_rrsig &&
                  (new_type.isNone || some r.rtype == new_type))
            match ns_response.name_servers with
            | [] => (calls, .error .noNameServer)
            | first :: _ => (calls, .ok (first.name, responses))
        | other => (calls, .error (.serverError other))
      | other => (calls, .error (.serverError other))

/-- The forward deletion step of `delete_name`: delete the requested type
via the `update0` marker when a record type was given, otherwise issue a
`delete_all` for the name, checking the response code either way. -/
def forward_delete_step (args : Args) (zone : DnsName) (s : Session) :
    Traced Unit :=
  match args.to_update0 with
  | some record => delete_record record zone s
  | none =>
    let call := SessionCall.delete_all args.hostname zone DNSClass.IN
    match s.delete_all args.hostname zone DNSClass.IN with
    | .error _ => ([call], .error .transport)
    | .ok response =>
      if response.code ≠ ResponseCode.NoError then
        ([call], .error (.serverError response.code))
      else
        ([call], .ok ())

/-- The reverse name of a removed record's data, when it is address-typed
(the `match *resp.data() { A/AAAA => .., _ => continue }` of the reverse
cleanup loop). -/
def reverseNameOf : RData → Option DnsName
  | .A ip => some (reverseNameV4 ip)
  | .AAAA v => some (reverseNameV6 v)
  | _ => none

/-- One iteration of the reverse-PTR cleanup loop of `delete_name`: skip
non-address records; resolve the reverse name's zone, skipping (with a
warning) on failure; skip if no PTR record exists; delete the PTR RRset,
only warning on failure.  The iteration never produces an error — it only
contributes session calls. -/
def reverse_cleanup_step (resp : DnsRecord) (s : Session) :
    List SessionCall :=
  match reverseNameOf resp.rdata with
  | none => []
  | some name =>
    match find_zone_root name (some RRType.PTR) s with
    | (calls, .error _) => calls
    | (calls, .ok (zone, rev_resp)) =>
      if rev_resp.isEmpty then calls
      else
        let record := DnsRecord.update0 name resp.ttl RRType.PTR
        calls ++ (delete_record record zone s).1

/-- The whole reverse-PTR cleanup loop, over the removed records in order. -/
def reverse_cleanup (responses : List DnsRecord) (s : Session) :
    List SessionCall :=
  responses.flatMap (fun r => reverse_cleanup_step r s)

/-- `delete_name`: resolve the zone, fail with the nothing-to-delete error
when no matching record exists, perform the forward delete, then (when
`--reverse` was given) run the best-effort reverse-PTR cleanup loop. -/
def delete_name (args : Args) (s : Session) : Traced Unit :=
  match find_zone_root args.hostname (args.record_type.map (·.toRRType)) s with
  | (calls, .error e) => (calls, .error e)
  | (calls, .ok (zone, responses)) =>
    if responses.isEmpty then
      (calls, .error (.nothingToDelete args.hostname))
    else
      match forward_delete_step args zone s with
      | (dcalls, .error e) => (calls ++ dcalls, .error e)
      | (dcalls, .ok ()) =>
        if args.reverse then
          (calls ++ dcalls ++ reverse_cleanup responses s, .ok ())
        else
          (calls ++ dcalls, .ok ())

/-- The create step shared by the tail of `update_name`: issue `create` and
check the response code. -/
def create_step (record : DnsRecord) (zone : DnsName) (s : Session) :
    Traced Unit :=
  let call := SessionCall.create record zone
  match s.create record zone with
  | .error _ => ([call], .error .transport)
  | .ok response =>
    if response.code ≠ ResponseCode.NoError then
      ([call], .error (.serverError response.code))
    else
      ([call], .ok ())

/-- The append step of `update_name`: issue `append` (allowing creation of
a new RRset) and check the response code. -/
def append_step (record : DnsRecord) (zone : DnsName) (s : Session) :
    Traced Unit :=
  let call := SessionCall.append record zone true
  match s.append record zone true with
  | .error _ => ([call], .error .transport)
  | .ok response =>
    if response.code ≠ ResponseCode.NoError then
      ([call], .error (.serverError response.code))
    else
      ([call], .ok ())

/-- `update_name`: build the (forward or reverse) record, resolve the zone
filtered by that record's type; when a matching record exists either append
(with `--append`) or first delete the existing RRset via the `update0`
marker; then — unless an append was done — create the new record. -/
def update_name (args : Args) (reverse : Bool) (s : Session) : Traced Unit :=
  match (if reverse then args.to_reverse_record else args.to_record) with
  | .error e => ([], .error e)
  | .ok record =>
    match find_zone_root record.name (some record.rtype) s with
    | (calls, .error e) => (calls, .error e)
    | (calls, .ok (zone, responses)) =>
      if !responses.isEmpty then
        if args.append then
          match append_step record zone s with
          | (acalls, r) => (calls ++ acalls, r)
        else
          let update0 := DnsRecord.update0 record.name record.ttl record.rtype
          match delete_record update0 zone s with
          | (dcalls, .error e) => (calls ++ dcalls, .error e)
          | (dcalls, .ok ()) =>
            match create_step record zone s with
            | (ccalls, r) => (calls ++ dcalls ++ ccalls, r)
      else
        match create_step record zone s with
        | (ccalls, r) => (calls ++ ccalls, r)

/-- The post-initialization dispatch of `main`: with `--delete` run
`delete_name`; otherwise run the forward `update_name` and, when
`--reverse` was given and the forward update succeeded, run the reverse
`update_name`, whose failure propagates through the trailing `?`. -/
def main_run (args : Args) (s : Session) : Traced Unit :=
  if args.delete then
    delete_name args s
  else
    match update_name args false s with
    | (calls, .error e) => (calls, .error e)
    | (calls, .ok ()) =>
      if args.reverse then
        match update_name args true s with
        | (rcalls, r) => (calls ++ rcalls, r)
      else
        (calls, .ok ())

/-! ## Helper lemmas -/

/-- The trace of a zone resolution is one or both of the two queries. -/
theorem find_zone_root_calls (hostname : DnsName)
    (new_type : Option RRType) (s : Session) :
    (find_zone_root hostname new_type s).1
        = [SessionCall.query hostname .IN .ANY] ∨
    (find_zone_root hostname new_type s).1
        = [SessionCall.query hostname .IN .ANY,
           SessionCall.query hostname .IN .NS] := by
  unfold find_zone_root
  repeat' split
  all_goals simp

/-- The trace of a zone resolution consists only of queries. -/
theorem find_zone_root_calls_queries (hostname : DnsName)
    (new_type : Option RRType) (s : Session) :
    ∀ c ∈ (find_zone_root hostname new_type s).1, c.isQuery = true := by
  intro c hc
  rcases find_zone_root_calls hostname new_type s with h | h <;>
    rw [h] at hc <;> simp at hc
  · subst hc; rfl
  · rcases hc with hc | hc <;> subst hc <;> rfl

/-- A `delete_record` step issues exactly one `delete_rrset` call. -/
theorem delete_record_calls (record : DnsRecord) (zone : DnsName)
    (s : Session) :
    (delete_record record zone s).1 = [SessionCall.delete_rrset record zone] := by
  unfold delete_record
  repeat' split
  all_goals rfl

/-- A `create_step` issues exactly one `create` call. -/
theorem create_step_calls (record : DnsRecord) (zone : DnsName)
    (s : Session) :
    (create_step record zone s).1 = [SessionCall.create record zone] := by
  unfold create_step
  repeat' split
  all_goals rfl

/-- An `append_step` issues exactly one `append` call. -/
theorem append_step_calls (record : DnsRecord) (zone : DnsName)
    (s : Session) :
    (append_step record zone s).1 = [SessionCall.append record zone true] := by
  unfold append_step
  repeat' split
  all_goals rfl

/-- Inversion of a successful zone resolution: the trace is the two queries,
the ANY response was received, is authoritative, the extracted records are
exactly the matching non-RRSIG answers, and the zone is the owner name of
the first name-server record. -/
theorem find_zone_root_ok_inv (hostname : DnsName) (new_type : Option RRType)
    (s : Session) (calls : List SessionCall) (zone : DnsName)
    (rs : List DnsRecord)
    (h : find_zone_root hostname new_type s = (calls, .ok (zone, rs))) :
    calls = [SessionCall.query hostname .IN .ANY,
             SessionCall.query hostname .IN .NS] ∧
    ∃ resp ns_resp,
      s.query hostname DNSClass.IN RRType.ANY = .ok resp ∧
      s.query hostname DNSClass.IN RRType.NS = .ok ns_resp ∧
      resp.authoritative = true ∧
      rs = resp.answers.filter
        (fun r => !r.rtype.is_rrsig && (new_type.isNone || some r.rtype == new_type)) ∧
      ∃ first rest, ns_resp.name_servers = first :: rest ∧ zone = first.name := by
  unfold find_zone_root at h
  repeat' split at h
  all_goals simp_all

/-- The tail of `update_name` after a successful record build and zone
resolution, as one equation. -/
theorem update_name_eq (args : Args) (reverse : Bool) (s : Session)
    (record : DnsRecord) (calls : List SessionCall) (zone : DnsName)
    (responses : List DnsRecord)
    (hrec : (if reverse then args.to_reverse_record else args.to_record)
      = .ok record)
    (hfz : find_zone_root record.name (some record.rtype) s
      = (calls, .ok (zone, responses))) :
    update_name args reverse s =
      if !responses.isEmpty then
        if args.append then
          (calls ++ (append_step record zone s).1, (append_step record zone s).2)
        else
          match delete_record
              (DnsRecord.update0 record.name record.ttl record.rtype) zone s with
          | (dcalls, .error e) => (calls ++ dcalls, .error e)
          | (dcalls, .ok ()) =>
            (calls ++ dcalls ++ (create_step record zone s).1,
             (create_step record zone s).2)
      else
        (calls ++ (create_step record zone s).1, (create_step record zone s).2) := by
  unfold update_name
  rw [hrec]
  dsimp only
  rw [hfz]

/-- The tail of `delete_name` after a successful zone resolution, as one
equation. -/
theorem delete_name_eq (args : Args) (s : Session) (calls : List SessionCall)
    (zone : DnsName) (responses : List DnsRecord)
    (hfz : find_zone_root args.hostname (args.record_type.map (·.toRRType)) s
      = (calls, .ok (zone, responses))) :
    delete_name args s =
      if responses.isEmpty then
        (calls, .error (.nothingToDelete args.hostname))
      else
        match forward_delete_step args zone s with
        | (dcalls, .error e) => (calls ++ dcalls, .error e)
        | (dcalls, .ok ()) =>
          if args.reverse then
            (calls ++ dcalls ++ reverse_cleanup responses s, .ok ())
          else
            (calls ++ dcalls, .ok ()) := by
  unfold delete_name
  rw [hfz]

/-! ## Claims -/

/-- Claim C1: in Create-or-replace mode against a name with an existing
record of the requested type, the orchestrator issues the delete of that
type's RRset first and then the create with the new record, in that order;
and if the delete step fails (transport error or non-NoError status,
i.e. any error result), the create call is never issued. -/
theorem replace_delete_then_create (args : Args) (reverse : Bool)
    (s : Session) (record : DnsRecord) (calls : List SessionCall)
    (zone : DnsName) (responses : List DnsRecord)
    (hap : args.append = false)
    (hrec : (if reverse then args.to_reverse_record else args.to_record)
      = .ok record)
    (hfz : find_zone_root record.name (some record.rtype) s
      = (calls, .ok (zone, responses)))
    (hne : responses ≠ []) :
    ((delete_record (DnsRecord.update0 record.name record.ttl record.rtype)
        zone s).2 = .ok () →
      update_name args reverse s =
        (calls ++
          [SessionCall.delete_rrset
            (DnsRecord.update0 record.name record.ttl record.rtype) zone,
           SessionCall.create record zone],
         (create_step record zone s).2)) ∧
    (∀ e, (delete_record (DnsRecord.update0 record.name record.ttl record.rtype)
        zone s).2 = .error e →
      update_name args reverse s =
        (calls ++
          [SessionCall.delete_rrset
            (DnsRecord.update0 record.name record.ttl record.rtype) zone],
         .error e) ∧
      ∀ r z, SessionCall.create r z ∉ (update_name args reverse s).1) := by
  have hne' : responses.isEmpty = false := by
    cases responses with
    | nil => exact absurd rfl hne
    | cons a l => rfl
  have heq := update_name_eq args reverse s record calls zone responses hrec hfz
  rw [hne', hap] at heq
  simp only [Bool.not_false, if_true, Bool.false_eq_true, if_false] at heq
  have hqs : ∀ c ∈ calls, c.isQuery = true := by
    have := find_zone_root_calls_queries record.name (some record.rtype) s
    rw [hfz] at this
    exact this
  rcases hd : delete_record
      (DnsRecord.update0 record.name record.ttl record.rtype) zone s
    with ⟨dcalls, dres⟩
  have hdc : dcalls
      = [SessionCall.delete_rrset
          (DnsRecord.update0 record.name record.ttl record.rtype) zone] := by
    have := delete_record_calls
      (DnsRecord.update0 record.name record.ttl record.rtype) zone s
    rw [hd] at this
    exact this
  rw [hd] at heq
  constructor
  · intro hok
    have hok' : dres = Except.ok () := hok
    subst hok'
    have hu : update_name args reverse s
        = (calls ++ dcalls ++ (create_step record zone s).1,
           (create_step record zone s).2) := heq
    rw [hdc, create_step_calls] at hu
    rw [hu]
    simp
  · intro e he
    have he' : dres = Except.error e := he
    subst he'
    have hu : update_name args reverse s = (calls ++ dcalls, Except.error e) := heq
    rw [hdc] at hu
    refine ⟨hu, ?_⟩
    intro r z hmem
    rw [hu] at hmem
    rcases List.mem_append.mp hmem with hm | hm
    · have := hqs _ hm
      simp [SessionCall.isQuery] at this
    · simp at hm

/-- An authoritative session for the zone owning "host.example.": the name
holds one A record, and all update operations succeed. -/
def sessReplace : Session where
  query := fun _ _ t =>
    match t with
    | .ANY => .ok ⟨.NoError, true,
        [⟨"host.example.", 300, .A ⟨192, 0, 2, 9⟩⟩], []⟩
    | .NS => .ok ⟨.NoError, true, [],
        [⟨"example.", 3600, .NS "ns1.example."⟩]⟩
    | _ => .error ()
  create := fun _ _ => .ok ⟨.NoError, true, [], []⟩
  append := fun _ _ _ => .ok ⟨.NoError, true, [], []⟩
  delete_rrset := fun _ _ => .ok ⟨.NoError, true, [], []⟩
  delete_all := fun _ _ _ => .ok ⟨.NoError, true, [], []⟩

/-- A create-or-replace invocation for an A record at "host.example.". -/
def argsReplace : Args :=
  ⟨"host.example.", some .A, ["192.0.2.5"], false, false, false, 300⟩

/-- Witness for C1: the replace invocation against the session with an
existing A record issues query, query, delete of the A RRset, create — in
that order — and succeeds. -/
theorem replace_delete_then_create_witness :
    update_name argsReplace false sessReplace =
      ([SessionCall.query "host.example." .IN .ANY,
        SessionCall.query "host.example." .IN .NS,
        SessionCall.delete_rrset ⟨"host.example.", 300, .Update0 .A⟩ "example.",
        SessionCall.create ⟨"host.example.", 300, .A ⟨192, 0, 2, 5⟩⟩ "example."],
       .ok ()) := by
  have h := (replace_delete_then_create argsReplace false sessReplace
      ⟨"host.example.", 300, .A ⟨192, 0, 2, 5⟩⟩
      [SessionCall.query "host.example." .IN .ANY,
       SessionCall.query "host.example." .IN .NS]
      "example." [⟨"host.example.", 300, .A ⟨192, 0, 2, 9⟩⟩]
      rfl rfl rfl (List.cons_ne_nil _ _)).1 rfl
  rw [h]
  rfl

/-! ## Claim C2 -/

/-- Claim C2: in Delete mode, when zone resolution returns zero existing
records matching the requested filter, the operation fails with the
nothing-to-delete error and no session delete call — neither a
delete-RRset nor a delete-all — is issued. -/
theorem delete_mode_nothing_to_delete (args : Args) (s : Session)
    (calls : List SessionCall) (zone : DnsName)
    (hfz : find_zone_root args.hostname (args.record_type.map (·.toRRType)) s
      = (calls, .ok (zone, []))) :
    delete_name args s = (calls, .error (.nothingToDelete args.hostname)) ∧
    (∀ r z, SessionCall.delete_rrset r z ∉ calls) ∧
    (∀ n z cl, SessionCall.delete_all n z cl ∉ calls) := by
  have heq := delete_name_eq args s calls zone [] hfz
  have hqs : ∀ c ∈ calls, c.isQuery = true := by
    have := find_zone_root_calls_queries args.hostname
      (args.record_type.map (·.toRRType)) s
    rw [hfz] at this
    exact this
  refine ⟨by simpa using heq, ?_, ?_⟩
  · intro r z hmem
    have := hqs _ hmem
    simp [SessionCall.isQuery] at this
  · intro n z cl hmem
    have := hqs _ hmem
    simp [SessionCall.isQuery] at this

/-- A session that is authoritative for "gone.example." but has no records
at the name. -/
def sessEmpty : Session where
  query := fun _ _ t =>
    match t with
    | .ANY => .ok ⟨.NXDomain, true, [], []⟩
    | .NS => .ok ⟨.NoError, true, [],
        [⟨"example.", 3600, .NS "ns1.example."⟩]⟩
    | _ => .error ()
  create := fun _ _ => .ok ⟨.NoError, true, [], []⟩
  append := fun _ _ _ => .ok ⟨.NoError, true, [], []⟩
  delete_rrset := fun _ _ => .ok ⟨.NoError, true, [], []⟩
  delete_all := fun _ _ _ => .ok ⟨.NoError, true, [], []⟩

/-- A delete invocation for the A records of "gone.example.". -/
def argsDeleteEmpty : Args :=
  ⟨"gone.example.", some .A, [], false, true, false, 86400⟩

/-- Witness for C2: deleting a name with no matching records fails with
the nothing-to-delete error after the two queries. -/
theorem delete_mode_nothing_to_delete_witness :
    delete_name argsDeleteEmpty sessEmpty =
      ([SessionCall.query "gone.example." .IN .ANY,
        SessionCall.query "gone.example." .IN .NS],
       .error (.nothingToDelete "gone.example.")) := by
  have h := (delete_mode_nothing_to_delete argsDeleteEmpty sessEmpty
      [SessionCall.query "gone.example." .IN .ANY,
       SessionCall.query "gone.example." .IN .NS]
      "example." rfl).1
  rw [h]
  rfl

/-! ## Claim C3 -/

/-- Claim C3: in the reverse-PTR cleanup loop of a Delete invocation with
reverse sync, every removed address record is processed independently —
resolution or delete failures only skip that address — and whatever the
session answers during cleanup, the already-successful forward delete
still yields overall success, with every removed record's cleanup calls
present in the trace. -/
theorem reverse_cleanup_is_independent (args : Args) (s : Session)
    (calls dcalls : List SessionCall) (zone : DnsName)
    (responses : List DnsRecord)
    (hrev : args.reverse = true)
    (hfz : find_zone_root args.hostname (args.record_type.map (·.toRRType)) s
      = (calls, .ok (zone, responses)))
    (hne : responses ≠ [])
    (hfwd : forward_delete_step args zone s = (dcalls, .ok ())) :
    delete_name args s =
      (calls ++ dcalls ++ reverse_cleanup responses s, .ok ()) ∧
    ∀ r ∈ responses, ∃ pre post,
      reverse_cleanup responses s = pre ++ reverse_cleanup_step r s ++ post := by
  have hne' : responses.isEmpty = false := by
    cases responses with
    | nil => exact absurd rfl hne
    | cons a l => rfl
  have heq := delete_name_eq args s calls zone responses hfz
  rw [hne', hfwd] at heq
  simp only [Bool.false_eq_true, if_false, hrev, if_true] at heq
  refine ⟨heq, ?_⟩
  intro r hr
  obtain ⟨l1, l2, hsplit⟩ := List.append_of_mem hr
  subst hsplit
  refine ⟨reverse_cleanup l1 s, reverse_cleanup l2 s, ?_⟩
  unfold reverse_cleanup
  simp

/-- A session exercising the reverse cleanup: "host.example." holds two A
records; the reverse zone of the first address is unreachable (transport
failure), the reverse zone of the second resolves and holds a PTR record. -/
def sessRevDel : Session where
  query := fun n _ t =>
    if n = "host.example." then
      match t with
      | .ANY => .ok ⟨.NoError, true,
          [⟨"host.example.", 300, .A ⟨192, 0, 2, 1⟩⟩,
           ⟨"host.example.", 300, .A ⟨192, 0, 2, 2⟩⟩], []⟩
      | .NS => .ok ⟨.NoError, true, [],
          [⟨"example.", 3600, .NS "ns1.example."⟩]⟩
      | _ => .error ()
    else if n = "1.2.0.192.in-addr.arpa." then
      .error ()
    else
      match t with
      | .ANY => .ok ⟨.NoError, true,
          [⟨"2.2.0.192.in-addr.arpa.", 300, .PTR "host.example."⟩], []⟩
      | .NS => .ok ⟨.NoError, true, [],
          [⟨"2.0.192.in-addr.arpa.", 3600, .NS "ns1.example."⟩]⟩
      | _ => .error ()
  create := fun _ _ => .ok ⟨.NoError, true, [], []⟩
  append := fun _ _ _ => .ok ⟨.NoError, true, [], []⟩
  delete_rrset := fun _ _ => .ok ⟨.NoError, true, [], []⟩
  delete_all := fun _ _ _ => .ok ⟨.NoError, true, [], []⟩

/-- A reverse-sync delete invocation for the A records of "host.example.". -/
def argsRevDel : Args :=
  ⟨"host.example.", some .A, [], true, true, false, 86400⟩

/-- Witness for C3: with two A records removed and the first reverse zone
failing with a transport error, the second address's PTR delete still
proceeds and the overall result is success. -/
theorem reverse_cleanup_is_independent_witness :
    delete_name argsRevDel sessRevDel =
      ([SessionCall.query "host.example." .IN .ANY,
        SessionCall.query "host.example." .IN .NS,
        SessionCall.delete_rrset
          ⟨"host.example.", 86400, .Update0 .A⟩ "example.",
        SessionCall.query "1.2.0.192.in-addr.arpa." .IN .ANY,
        SessionCall.query "2.2.0.192.in-addr.arpa." .IN .ANY,
        SessionCall.query "2.2.0.192.in-addr.arpa." .IN .NS,
        SessionCall.delete_rrset
          ⟨"2.2.0.192.in-addr.arpa.", 300, .Update0 .PTR⟩
          "2.0.192.in-addr.arpa."],
       .ok ()) := by
  have h := (reverse_cleanup_is_independent argsRevDel sessRevDel
      [SessionCall.query "host.example." .IN .ANY,
       SessionCall.query "host.example." .IN .NS]
      [SessionCall.delete_rrset
        ⟨"host.example.", 86400, .Update0 .A⟩ "example."]
      "example."
      [⟨"host.example.", 300, .A ⟨192, 0, 2, 1⟩⟩,
       ⟨"host.example.", 300, .A ⟨192, 0, 2, 2⟩⟩]
      rfl rfl (List.cons_ne_nil _ _) rfl).1
  rw [h]
  rfl

/-! ## Claim C4 -/

/-- A session whose ANY answer is non-authoritative and also carries the
Refused status. -/
def sessRefusedNonAuth : Session where
  query := fun _ _ _ => .ok ⟨.Refused, false, [], []⟩
  create := fun _ _ => .ok ⟨.NoError, true, [], []⟩
  append := fun _ _ _ => .ok ⟨.NoError, true, [], []⟩
  delete_rrset := fun _ _ => .ok ⟨.NoError, true, [], []⟩
  delete_all := fun _ _ _ => .ok ⟨.NoError, true, [], []⟩

/-- Counterexample to C4 as stated: against a response that is not marked
authoritative but carries the Refused status, resolution fails with the
server-error, not with the not-authoritative error — the status checks
run first. -/
theorem nonauthoritative_claim_counterexample :
    (∃ resp, sessRefusedNonAuth.query "host.example." DNSClass.IN RRType.ANY
        = .ok resp ∧ resp.authoritative = false) ∧
    find_zone_root "host.example." none sessRefusedNonAuth =
      ([SessionCall.query "host.example." .IN .ANY,
        SessionCall.query "host.example." .IN .NS],
       .error (.serverError .Refused)) ∧
    (UpdateError.serverError .Refused
      ≠ UpdateError.notAuthoritative "host.example.") := by
  refine ⟨⟨⟨.Refused, false, [], []⟩, rfl, rfl⟩, rfl, by decide⟩

/-- Claim C4 (amended): when both query statuses are acceptable (NoError
or NXDomain) and the any-type response is not marked authoritative,
resolution fails with the not-authoritative error, regardless of the
response's answer records. -/
theorem nonauthoritative_fails (hostname : DnsName) (new_type : Option RRType)
    (s : Session) (resp ns_resp : DnsResponse)
    (h1 : s.query hostname DNSClass.IN RRType.ANY = .ok resp)
    (h2 : s.query hostname DNSClass.IN RRType.NS = .ok ns_resp)
    (hc1 : resp.code = .NXDomain ∨ resp.code = .NoError)
    (hc2 : ns_resp.code = .NXDomain ∨ ns_resp.code = .NoError)
    (hauth : resp.authoritative = false) :
    find_zone_root hostname new_type s =
      ([SessionCall.query hostname .IN .ANY,
        SessionCall.query hostname .IN .NS],
       .error (.notAuthoritative hostname)) := by
  unfold find_zone_root
  rw [h1, h2]
  dsimp only
  rcases hc1 with hc1 | hc1 <;> rcases hc2 with hc2 | hc2 <;>
    rw [hc1, hc2] <;> simp [hauth]

/-- A session whose ANY answer is non-authoritative with NoError status
and a non-empty answer section. -/
def sessNonAuth : Session where
  query := fun _ _ t =>
    match t with
    | .ANY => .ok ⟨.NoError, false,
        [⟨"host.example.", 300, .A ⟨192, 0, 2, 9⟩⟩], []⟩
    | .NS => .ok ⟨.NoError, false, [],
        [⟨"example.", 3600, .NS "ns1.example."⟩]⟩
    | _ => .error ()
  create := fun _ _ => .ok ⟨.NoError, true, [], []⟩
  append := fun _ _ _ => .ok ⟨.NoError, true, [], []⟩
  delete_rrset := fun _ _ => .ok ⟨.NoError, true, [], []⟩
  delete_all := fun _ _ _ => .ok ⟨.NoError, true, [], []⟩

/-- Witness for the amended C4: a NoError but non-authoritative response
with answers still fails with the not-authoritative error. -/
theorem nonauthoritative_fails_witness :
    find_zone_root "host.example." (some RRType.A) sessNonAuth =
      ([SessionCall.query "host.example." .IN .ANY,
        SessionCall.query "host.example." .IN .NS],
       .error (.notAuthoritative "host.example.")) := by
  exact nonauthoritative_fails "host.example." (some RRType.A) sessNonAuth
    ⟨.NoError, false, [⟨"host.example.", 300, .A ⟨192, 0, 2, 9⟩⟩], []⟩
    ⟨.NoError, false, [], [⟨"example.", 3600, .NS "ns1.example."⟩]⟩
    rfl rfl (Or.inr rfl) (Or.inr rfl) rfl

/-! ## Claim C5 -/

/-- Claim C5: every successful zone resolution returns as zone name the
owner name of the first record in the NS response's name-server section,
and an empty name-server section (with otherwise acceptable responses)
fails with the no-name-server error. -/
theorem zone_name_is_first_name_server (hostname : DnsName)
    (new_type : Option RRType) (s : Session) :
    (∀ calls zone rs,
      find_zone_root hostname new_type s = (calls, .ok (zone, rs)) →
      ∃ ns_resp first rest,
        s.query hostname DNSClass.IN RRType.NS = .ok ns_resp ∧
        ns_resp.name_servers = first :: rest ∧
        zone = first.name) ∧
    (∀ resp ns_resp,
      s.query hostname DNSClass.IN RRType.ANY = .ok resp →
      s.query hostname DNSClass.IN RRType.NS = .ok ns_resp →
      (resp.code = .NXDomain ∨ resp.code = .NoError) →
      (ns_resp.code = .NXDomain ∨ ns_resp.code = .NoError) →
      resp.authoritative = true →
      ns_resp.name_servers = [] →
      (find_zone_root hostname new_type s).2 = .error .noNameServer) := by
  constructor
  · intro calls zone rs h
    obtain ⟨-, resp, ns_resp, -, hq2, -, -, first, rest, hns, hz⟩ :=
      find_zone_root_ok_inv hostname new_type s calls zone rs h
    exact ⟨ns_resp, first, rest, hq2, hns, hz⟩
  · intro resp ns_resp h1 h2 hc1 hc2 hauth hns
    unfold find_zone_root
    rw [h1, h2]
    dsimp only
    rcases hc1 with hc1 | hc1 <;> rcases hc2 with hc2 | hc2 <;>
      rw [hc1, hc2] <;> simp [hauth, hns]

/-- A session that answers both queries acceptably and authoritatively but
reports no name servers at all. -/
def sessNoNS : Session where
  query := fun _ _ t =>
    match t with
    | .ANY => .ok ⟨.NoError, true,
        [⟨"host.example.", 300, .A ⟨192, 0, 2, 9⟩⟩], []⟩
    | .NS => .ok ⟨.NoError, true, [], []⟩
    | _ => .error ()
  create := fun _ _ => .ok ⟨.NoError, true, [], []⟩
  append := fun _ _ _ => .ok ⟨.NoError, true, [], []⟩
  delete_rrset := fun _ _ => .ok ⟨.NoError, true, [], []⟩
  delete_all := fun _ _ _ => .ok ⟨.NoError, true, [], []⟩

/-- Witness for C5: the zone returned against the populated session is the
owner name of its first NS record, and the session with an empty
name-server section fails with the no-name-server error. -/
theorem zone_name_is_first_name_server_witness :
    (∃ ns_resp first rest,
      sessReplace.query "host.example." DNSClass.IN RRType.NS = .ok ns_resp ∧
      ns_resp.name_servers = first :: rest ∧
      ("example." : DnsName) = first.name) ∧
    (find_zone_root "host.example." (some RRType.A) sessNoNS).2 =
      .error .noNameServer := by
  constructor
  · exact (zone_name_is_first_name_server "host.example."
      (some RRType.A) sessReplace).1
      [SessionCall.query "host.example." .IN .ANY,
       SessionCall.query "host.example." .IN .NS]
      "example." [⟨"host.example.", 300, .A ⟨192, 0, 2, 9⟩⟩] rfl
  · exact (zone_name_is_first_name_server "host.example."
      (some RRType.A) sessNoNS).2
      ⟨.NoError, true, [⟨"host.example.", 300, .A ⟨192, 0, 2, 9⟩⟩], []⟩
      ⟨.NoError, true, [], []⟩
      rfl rfl (Or.inr rfl) (Or.inr rfl) rfl rfl

/-! ## Claim C6 -/

/-- The spec's description of the records a resolution returns: the answer
records that are not signature records and whose type equals the filter
when one is given, or all non-signature answers when no filter is given. -/
def spec_keeps (new_type : Option RRType) (r : DnsRecord) : Bool :=
  !(r.rtype == RRType.RRSIG) &&
    (match new_type with
     | none => true
     | some t => r.rtype == t)

/-- The source's extraction predicate agrees with the spec's description. -/
theorem extract_pred_eq_spec_keeps (nt : Option RRType) (r : DnsRecord) :
    (!r.rtype.is_rrsig && (nt.isNone || some r.rtype == nt))
      = spec_keeps nt r := by
  unfold spec_keeps
  cases nt with
  | none => cases h : r.rtype <;> simp [RRType.is_rrsig]
  | some t => cases h : r.rtype <;> cases t <;>
      simp [RRType.is_rrsig]

/-- Claim C6: the existing-record list of every zone resolution is exactly
the answer records of the any-type response that are not signature records
and whose type matches the filter (all non-signature answers when no
filter is given). -/
theorem resolved_records_are_filtered_answers (hostname : DnsName)
    (new_type : Option RRType) (s : Session) (calls : List SessionCall)
    (zone : DnsName) (rs : List DnsRecord)
    (h : find_zone_root hostname new_type s = (calls, .ok (zone, rs))) :
    ∃ resp, s.query hostname DNSClass.IN RRType.ANY = .ok resp ∧
      rs = resp.answers.filter (spec_keeps new_type) := by
  obtain ⟨-, resp, ns_resp, hq, -, -, hrs, -⟩ :=
    find_zone_root_ok_inv hostname new_type s calls zone rs h
  refine ⟨resp, hq, ?_⟩
  rw [hrs]
  apply List.filter_congr
  intro r hr
  exact extract_pred_eq_spec_keeps new_type r

/-- A session whose ANY answer mixes an A record, a signature record and a
TXT record. -/
def sessMixed : Session where
  query := fun _ _ t =>
    match t with
    | .ANY => .ok ⟨.NoError, true,
        [⟨"host.example.", 300, .A ⟨192, 0, 2, 9⟩⟩,
         ⟨"host.example.", 300, .RRSIG⟩,
         ⟨"host.example.", 300, .TXT ["hello"]⟩], []⟩
    | .NS => .ok ⟨.NoError, true, [],
        [⟨"example.", 3600, .NS "ns1.example."⟩]⟩
    | _ => .error ()
  create := fun _ _ => .ok ⟨.NoError, true, [], []⟩
  append := fun _ _ _ => .ok ⟨.NoError, true, [], []⟩
  delete_rrset := fun _ _ => .ok ⟨.NoError, true, [], []⟩
  delete_all := fun _ _ _ => .ok ⟨.NoError, true, [], []⟩

/-- Witness for C6: against the mixed session with an A filter, exactly the
A record is extracted — the signature and TXT records are not. -/
theorem resolved_records_are_filtered_answers_witness :
    ∃ resp, sessMixed.query "host.example." DNSClass.IN RRType.ANY
        = .ok resp ∧
      [(⟨"host.example.", 300, .A ⟨192, 0, 2, 9⟩⟩ : DnsRecord)]
        = resp.answers.filter (spec_keeps (some RRType.A)) := by
  exact resolved_records_are_filtered_answers "host.example."
    (some RRType.A) sessMixed
    [SessionCall.query "host.example." .IN .ANY,
     SessionCall.query "host.example." .IN .NS]
    "example." [⟨"host.example.", 300, .A ⟨192, 0, 2, 9⟩⟩] rfl

/-! ## Claim C7 -/

/-- Counterexample to C7 as stated: an A request supplied with two values
does not fail — the builder uses only the first value and succeeds. -/
theorem a_record_with_two_values_builds :
    (⟨"host.example.", some .A, ["192.0.2.1", "192.0.2.2"],
        false, false, false, 300⟩ : Args).to_record =
      .ok ⟨"host.example.", 300, .A ⟨192, 0, 2, 1⟩⟩ ∧
    (["192.0.2.1", "192.0.2.2"] : List String).length ≠ 1 := by
  exact ⟨rfl, by decide⟩

/-- Claim C7 (amended): a record-build request with zero values fails with
the missing-value error for every record type; an MX request with a
non-empty value list whose length is not 2 fails with the MX arity error
naming the expected two fields; an SRV request with a non-empty value list
whose length is not 4 fails with the SRV arity error naming the expected
four fields; the builder is total, so it never panics.  (Requests of the
single-value types with extra values build from the first value alone, and
TXT accepts any number of strings.) -/
theorem build_arity_errors (args : Args) :
    (args.value = [] → args.to_record = .error .missingValue) ∧
    (args.record_type = some .MX → args.value ≠ [] →
      args.value.length ≠ 2 → args.to_record = .error .mxArity) ∧
    (args.record_type = some .SRV → args.value ≠ [] →
      args.value.length ≠ 4 → args.to_record = .error .srvArity) := by
  refine ⟨?_, ?_, ?_⟩
  · intro h
    simp [Args.to_record, h, Bind.bind, Except.bind]
  · intro hmx hne hlen
    match hv : args.value with
    | [] => exact absurd hv hne
    | [a] => simp [Args.to_record, hv, hmx, Bind.bind, Except.bind]
    | [a, b] => rw [hv] at hlen; exact absurd rfl hlen
    | a :: b :: c :: l => simp [Args.to_record, hv, hmx, Bind.bind, Except.bind]
  · intro hsrv hne hlen
    match hv : args.value with
    | [] => exact absurd hv hne
    | [a] => simp [Args.to_record, hv, hsrv, Bind.bind, Except.bind]
    | [a, b] => simp [Args.to_record, hv, hsrv, Bind.bind, Except.bind]
    | [a, b, c] => simp [Args.to_record, hv, hsrv, Bind.bind, Except.bind]
    | [a, b, c, d] => rw [hv] at hlen; exact absurd rfl hlen
    | a :: b :: c :: d :: e :: l => simp [Args.to_record, hv, hsrv, Bind.bind, Except.bind]

/-- Witness for the amended C7: a valueless A request reports the missing
value, a three-value MX request reports the MX arity error, and a
three-value SRV request reports the SRV arity error. -/
theorem build_arity_errors_witness :
    (⟨"host.example.", some .A, [], false, false, false, 300⟩
        : Args).to_record = .error .missingValue ∧
    (⟨"host.example.", some .MX, ["10", "20", "mail.example."],
        false, false, false, 300⟩ : Args).to_record = .error .mxArity ∧
    (⟨"host.example.", some .SRV, ["1", "2", "3"],
        false, false, false, 300⟩ : Args).to_record = .error .srvArity := by
  refine ⟨?_, ?_, ?_⟩
  · exact (build_arity_errors
      ⟨"host.example.", some .A, [], false, false, false, 300⟩).1 rfl
  · exact (build_arity_errors
      ⟨"host.example.", some .MX, ["10", "20", "mail.example."],
        false, false, false, 300⟩).2.1 rfl (by decide) (by decide)
  · exact (build_arity_errors
      ⟨"host.example.", some .SRV, ["1", "2", "3"],
        false, false, false, 300⟩).2.2 rfl (by decide) (by decide)

/-! ## Claim C8 -/

/-- Counterexample to C8 as stated: the delete marker synthesized for an
invocation with ttl 300 carries ttl 300, not 0 (its rdata is empty). -/
theorem delete_marker_ttl_not_zero :
    (⟨"host.example.", some .A, ["192.0.2.5"], false, false, false, 300⟩
        : Args).to_update0 =
      some ⟨"host.example.", 300, .Update0 .A⟩ ∧
    (⟨"host.example.", 300, .Update0 .A⟩ : DnsRecord).ttl ≠ 0 ∧
    (⟨"host.example.", 300, .Update0 .A⟩ : DnsRecord).rdata.isEmptyRdata
      = true := by
  exact ⟨rfl, by decide, rfl⟩

/-- Claim C8 (amended): every synthesized delete marker has empty rdata,
and its ttl equals the invocation's requested ttl (the ttl passed to the
marker constructor), not 0. -/
theorem delete_marker_shape (args : Args) (t : DnsRecordType)
    (h : args.record_type = some t) :
    args.to_update0
      = some (DnsRecord.update0 args.hostname args.ttl t.toRRType) ∧
    ∀ name ttl rt,
      (DnsRecord.update0 name ttl rt).rdata.isEmptyRdata = true ∧
      (DnsRecord.update0 name ttl rt).ttl = ttl := by
  refine ⟨?_, ?_⟩
  · simp [Args.to_update0, h]
  · intro name ttl rt
    exact ⟨rfl, rfl⟩

/-- Witness for the amended C8: the marker of an A invocation with ttl 300
is the update0 record at the hostname with ttl 300 and empty rdata. -/
theorem delete_marker_shape_witness :
    (⟨"host.example.", some .A, ["192.0.2.5"], false, false, false, 300⟩
        : Args).to_update0 =
      some (DnsRecord.update0 "host.example." 300 RRType.A) ∧
    (DnsRecord.update0 "host.example." 300 RRType.A).rdata.isEmptyRdata
      = true := by
  have h := delete_marker_shape
    ⟨"host.example.", some .A, ["192.0.2.5"], false, false, false, 300⟩
    .A rfl
  exact ⟨h.1, (h.2 "host.example." 300 RRType.A).1⟩

/-! ## Claim C9 -/

/-- A session where the forward create of "host.example." succeeds but the
reverse zone of the address is unreachable. -/
def sessRevFail : Session where
  query := fun n _ t =>
    if n = "host.example." then
      match t with
      | .ANY => .ok ⟨.NoError, true, [], []⟩
      | .NS => .ok ⟨.NoError, true, [],
          [⟨"example.", 3600, .NS "ns1.example."⟩]⟩
      | _ => .error ()
    else
      .error ()
  create := fun _ _ => .ok ⟨.NoError, true, [], []⟩
  append := fun _ _ _ => .ok ⟨.NoError, true, [], []⟩
  delete_rrset := fun _ _ => .ok ⟨.NoError, true, [], []⟩
  delete_all := fun _ _ _ => .ok ⟨.NoError, true, [], []⟩

/-- A create invocation for an A record with reverse sync requested. -/
def argsRevFail : Args :=
  ⟨"host.example.", some .A, ["192.0.2.5"], true, false, false, 300⟩

/-- Counterexample to C9 as stated: the forward create succeeds, but the
reverse-PTR synchronization failure makes the whole invocation fail. -/
theorem reverse_sync_failure_flips_result :
    (update_name argsRevFail false sessRevFail).2 = .ok () ∧
    argsRevFail.reverse = true ∧
    (main_run argsRevFail sessRevFail).2 = .error .transport := by
  exact ⟨rfl, rfl, rfl⟩

/-- Claim C9 (amended): in Delete mode a reverse-cleanup failure never
turns an already-successful forward delete into a failure, but in
create/append mode the reverse update's result becomes the overall
result, so its failure fails the invocation. -/
theorem reverse_sync_failure_propagation (args : Args) (s : Session) :
    (args.delete = true →
      ∀ calls dcalls zone responses,
        find_zone_root args.hostname (args.record_type.map (·.toRRType)) s
          = (calls, .ok (zone, responses)) →
        responses ≠ [] →
        forward_delete_step args zone s = (dcalls, .ok ()) →
        (main_run args s).2 = .ok ()) ∧
    (args.delete = false → args.reverse = true →
      ∀ calls, update_name args false s = (calls, .ok ()) →
        (main_run args s).2 = (update_name args true s).2) := by
  constructor
  · intro hd calls dcalls zone responses hfz hne hfwd
    have hne' : responses.isEmpty = false := by
      cases responses with
      | nil => exact absurd rfl hne
      | cons a l => rfl
    have heq := delete_name_eq args s calls zone responses hfz
    rw [hne', hfwd] at heq
    simp only [Bool.false_eq_true, if_false] at heq
    unfold main_run
    rw [hd]
    simp only [if_true]
    rw [heq]
    split <;> rfl
  · intro hd hrev calls hfwd
    unfold main_run
    rw [hd]
    simp only [Bool.false_eq_true, if_false]
    rw [hfwd]
    dsimp only
    rw [hrev]
    simp only [if_true]

/-- Witness for the amended C9: the reverse-sync delete scenario still
succeeds overall, while in create mode the overall result equals the
(failing) reverse update's result. -/
theorem reverse_sync_failure_propagation_witness :
    (main_run argsRevDel sessRevDel).2 = .ok () ∧
    (main_run argsRevFail sessRevFail).2 =
      (update_name argsRevFail true sessRevFail).2 := by
  constructor
  · exact (reverse_sync_failure_propagation argsRevDel sessRevDel).1 rfl
      [SessionCall.query "host.example." .IN .ANY,
       SessionCall.query "host.example." .IN .NS]
      [SessionCall.delete_rrset
        ⟨"host.example.", 86400, .Update0 .A⟩ "example."]
      "example."
      [⟨"host.example.", 300, .A ⟨192, 0, 2, 1⟩⟩,
       ⟨"host.example.", 300, .A ⟨192, 0, 2, 2⟩⟩]
      rfl (List.cons_ne_nil _ _) rfl
  · exact (reverse_sync_failure_propagation argsRevFail sessRevFail).2
      rfl rfl
      [SessionCall.query "host.example." .IN .ANY,
       SessionCall.query "host.example." .IN .NS,
       SessionCall.create
         ⟨"host.example.", 300, .A ⟨192, 0, 2, 5⟩⟩ "example."]
      rfl

/-! ## Claim C10 -/

/-- A list of queries contains no delete calls of either kind. -/
theorem queries_have_no_deletes (l : List SessionCall)
    (hq : ∀ c ∈ l, c.isQuery = true) :
    (∀ r z, SessionCall.delete_rrset r z ∉ l) ∧
    (∀ n z cl, SessionCall.delete_all n z cl ∉ l) := by
  constructor
  · intro r z hm
    have := hq _ hm
    simp [SessionCall.isQuery] at this
  · intro n z cl hm
    have := hq _ hm
    simp [SessionCall.isQuery] at this

/-- A failed zone resolution makes `update_name` fail with the same error
and trace. -/
theorem update_name_err_eq (args : Args) (reverse : Bool) (s : Session)
    (record : DnsRecord) (calls : List SessionCall) (e : UpdateError)
    (hrec : (if reverse then args.to_reverse_record else args.to_record)
      = .ok record)
    (hfz : find_zone_root record.name (some record.rtype) s
      = (calls, .error e)) :
    update_name args reverse s = (calls, .error e) := by
  unfold update_name
  rw [hrec]
  dsimp only
  rw [hfz]

/-- A nonempty result of a type-filtered zone resolution exhibits an answer
record of that type in the ANY response. -/
theorem exists_matching_answer (hostname : DnsName) (t : RRType)
    (s : Session) (calls : List SessionCall) (zone : DnsName)
    (rs : List DnsRecord)
    (h : find_zone_root hostname (some t) s = (calls, .ok (zone, rs)))
    (hne : rs ≠ []) :
    ∃ resp, s.query hostname DNSClass.IN RRType.ANY = .ok resp ∧
      ∃ a ∈ resp.answers, a.rtype = t := by
  obtain ⟨-, resp, ns_resp, hq, -, -, hrs, -⟩ :=
    find_zone_root_ok_inv hostname (some t) s calls zone rs h
  refine ⟨resp, hq, ?_⟩
  cases hc : rs with
  | nil => exact absurd hc hne
  | cons a rest =>
    have ha : a ∈ rs := hc ▸ List.mem_cons_self a rest
    rw [hrs] at ha
    have hmf := List.mem_filter.mp ha
    refine ⟨a, hmf.1, ?_⟩
    have hp := hmf.2
    simp [Option.isNone] at hp
    exact hp.2

/-- Claim C10: in Create-or-replace and Append invocations, RRsets of
types other than the requested one are never deleted — the only possible
delete call carries the update0 marker of exactly the requested record's
type, it is issued only when a record of that type exists at the name, and
no delete-all call is ever issued. -/
theorem update_never_touches_other_types (args : Args) (reverse : Bool)
    (s : Session) (record : DnsRecord)
    (hrec : (if reverse then args.to_reverse_record else args.to_record)
      = .ok record) :
    (∀ r z, SessionCall.delete_rrset r z ∈ (update_name args reverse s).1 →
      r = DnsRecord.update0 record.name record.ttl record.rtype ∧
      r.rtype = record.rtype ∧
      ∃ resp, s.query record.name DNSClass.IN RRType.ANY = .ok resp ∧
        ∃ a ∈ resp.answers, a.rtype = record.rtype) ∧
    (∀ n z cl, SessionCall.delete_all n z cl
      ∉ (update_name args reverse s).1) := by
  have hqs := find_zone_root_calls_queries record.name (some record.rtype) s
  rcases hfz : find_zone_root record.name (some record.rtype) s
    with ⟨calls, res⟩
  have hcq : ∀ c ∈ calls, c.isQuery = true := by
    rw [hfz] at hqs
    exact hqs
  have hnodel := queries_have_no_deletes calls hcq
  cases res with
  | error e =>
    have hu : update_name args reverse s = (calls, .error e) :=
      update_name_err_eq args reverse s record calls e hrec hfz
    rw [hu]
    exact ⟨fun r z hm => absurd hm (hnodel.1 r z),
           fun n z cl hm => absurd hm (hnodel.2 n z cl)⟩
  | ok p =>
    rcases p with ⟨zone, responses⟩
    have heq := update_name_eq args reverse s record calls zone responses
      hrec hfz
    by_cases hne : responses.isEmpty = true
    · rw [hne] at heq
      simp only [Bool.not_true, Bool.false_eq_true, if_false] at heq
      rw [heq, create_step_calls]
      constructor
      · intro r z hm
        rcases List.mem_append.mp hm with hm | hm
        · exact absurd hm (hnodel.1 r z)
        · simp at hm
      · intro n z cl hm
        rcases List.mem_append.mp hm with hm | hm
        · exact absurd hm (hnodel.2 n z cl)
        · simp at hm
    · have hne' : responses.isEmpty = false := by
        cases h : responses.isEmpty with
        | true => exact absurd h hne
        | false => rfl
      have hner : responses ≠ [] := by
        cases responses with
        | nil => simp at hne'
        | cons a l => exact List.cons_ne_nil a l
      rw [hne'] at heq
      simp only [Bool.not_false, if_true] at heq
      have hex := exists_matching_answer record.name record.rtype s calls
        zone responses hfz hner
      by_cases hap : args.append = true
      · rw [hap] at heq
        simp only [if_true] at heq
        rw [heq, append_step_calls]
        constructor
        · intro r z hm
          rcases List.mem_append.mp hm with hm | hm
          · exact absurd hm (hnodel.1 r z)
          · simp at hm
        · intro n z cl hm
          rcases List.mem_append.mp hm with hm | hm
          · exact absurd hm (hnodel.2 n z cl)
          · simp at hm
      · have hap' : args.append = false := by
          cases h : args.append with
          | true => exact absurd h hap
          | false => rfl
        rw [hap'] at heq
        simp only [Bool.false_eq_true, if_false] at heq
        rcases hd : delete_record
            (DnsRecord.update0 record.name record.ttl record.rtype) zone s
          with ⟨dcalls, dres⟩
        have hdc : dcalls
            = [SessionCall.delete_rrset
                (DnsRecord.update0 record.name record.ttl record.rtype)
                zone] := by
          have := delete_record_calls
            (DnsRecord.update0 record.name record.ttl record.rtype) zone s
          rw [hd] at this
          exact this
        rw [hd] at heq
        cases dres with
        | error e =>
          have hu : update_name args reverse s
              = (calls ++ dcalls, .error e) := heq
          rw [hu, hdc]
          constructor
          · intro r z hm
            rcases List.mem_append.mp hm with hm | hm
            · exact absurd hm (hnodel.1 r z)
            · simp at hm
              exact ⟨hm.1, hm.1 ▸ rfl, hex⟩
          · intro n z cl hm
            rcases List.mem_append.mp hm with hm | hm
            · exact absurd hm (hnodel.2 n z cl)
            · simp at hm
        | ok u =>
          cases u
          have hu : update_name args reverse s
              = (calls ++ dcalls ++ (create_step record zone s).1,
                 (create_step record zone s).2) := heq
          rw [hu, hdc, create_step_calls]
          constructor
          · intro r z hm
            rcases List.mem_append.mp hm with hm | hm
            · rcases List.mem_append.mp hm with hm | hm
              · exact absurd hm (hnodel.1 r z)
              · simp at hm
                exact ⟨hm.1, hm.1 ▸ rfl, hex⟩
            · simp at hm
          · intro n z cl hm
            rcases List.mem_append.mp hm with hm | hm
            · rcases List.mem_append.mp hm with hm | hm
              · exact absurd hm (hnodel.2 n z cl)
              · simp at hm
            · simp at hm

/-- Witness for C10: in the concrete replace invocation the issued delete
call carries exactly the requested type's marker, and no delete-all call
appears in the trace. -/
theorem update_never_touches_other_types_witness :
    (SessionCall.delete_rrset ⟨"host.example.", 300, .Update0 .A⟩ "example."
      ∈ (update_name argsReplace false sessReplace).1) ∧
    (⟨"host.example.", 300, .Update0 .A⟩ : DnsRecord)
      = DnsRecord.update0 "host.example." 300 RRType.A ∧
    ∀ n z cl, SessionCall.delete_all n z cl
      ∉ (update_name argsReplace false sessReplace).1 := by
  have h := update_never_touches_other_types argsReplace false sessReplace
    ⟨"host.example.", 300, .A ⟨192, 0, 2, 5⟩⟩ rfl
  have htr : (update_name argsReplace false sessReplace).1
      = [SessionCall.query "host.example." .IN .ANY,
         SessionCall.query "host.example." .IN .NS,
         SessionCall.delete_rrset
           ⟨"host.example.", 300, .Update0 .A⟩ "example.",
         SessionCall.create
           ⟨"host.example.", 300, .A ⟨192, 0, 2, 5⟩⟩ "example."] := rfl
  have hm : SessionCall.delete_rrset
      ⟨"host.example.", 300, .Update0 .A⟩ "example."
      ∈ (update_name argsReplace false sessReplace).1 := by
    rw [htr]
    simp
  exact ⟨hm, (h.1 _ _ hm).1, h.2⟩
